import Mathlib

/-!
Verification of the PrintDown repository against its specification.

The definitions below are shallow embeddings of the Python sources:
* `parse_markdown_formatting` embeds `src/markdown_parser.py`
  (strings become `List Char`, positions are `Nat`, the `while` loop
  becomes a fuel-indexed recursion whose fuel `text.length` is shown
  sufficient because every iteration advances the position by at least 1);
* `add_print_job`, `pmStop` embed `src/printer_manager.py`;
* `serveConnection` embeds the per-connection receive loop of
  `src/tcp_servers.py` (the socket is modelled as a script of recv events);
* `doPOST`, `sendIppResponse` embed `src/ipp_server.py`
  (bytes become `Nat` below 256).
-/

/-! ## String helpers mirroring Python primitives -/

/-- `toL s` is the character list of a string literal. -/
def toL (s : String) : List Char := s.toList

/-- Python slice `text[a:b]` (with the usual clamping for out-of-range `b`). -/
def sub (l : List Char) (a b : Nat) : List Char := (l.drop a).take (b - a)

/-- Worker for `findFrom`: try positions `j, j+1, ...` while fuel lasts. -/
def findAux (p l : List Char) : Nat → Nat → Option Nat
  | _, 0 => none
  | j, fuel + 1 => if p.isPrefixOf (l.drop j) then some j else findAux p l (j + 1) fuel

/-- Python `text.find(p, start)`: least `j ≥ start` at which `p` occurs in `l`
(`none` plays the role of `-1`). -/
def findFrom (p l : List Char) (start : Nat) : Option Nat :=
  findAux p l start (l.length + 1 - start)

/-- Strip characters satisfying `q` from both ends (Python `str.strip(chars)`). -/
def stripEnds (q : Char → Bool) (xs : List Char) : List Char :=
  ((xs.dropWhile q).reverse.dropWhile q).reverse

/-- Python `str.strip('>')`. -/
def stripGt (xs : List Char) : List Char := stripEnds (fun c => c == '>') xs

/-- Python `str.isspace` characters relevant to `str.strip()` on ASCII text. -/
def pySpace (c : Char) : Bool :=
  c == ' ' || c == '\t' || c == '\n' || c == '\r' || c == Char.ofNat 11 || c == Char.ofNat 12

/-- Python `str.strip()` (whitespace strip). -/
def stripPy (xs : List Char) : List Char := stripEnds pySpace xs

/-! ## Directive model (`src/markdown_parser.py` result tuples) -/

/-- The style names used by the `('format', style, text)` tuples. -/
inductive FormatKind where
  | bold
  | underline
  | invert
  | double_height
  | double_width
deriving DecidableEq

/-- Result items of `parse_markdown_formatting` (the Directive vocabulary). -/
inductive Directive where
  | text (s : List Char)
  | format (k : FormatKind) (s : List Char)
  | header (level : Nat) (s : List Char)
  | align (a : Char) (s : List Char)
  | custom_size (w h : Nat) (s : List Char)
  | paper_cut
deriving DecidableEq

/-! ## The scanner, one loop iteration at a time -/

/-- `hash_count` of the header branch: the length of the run of `#`
characters starting at position `i`. -/
def headerCnt (l : List Char) (i : Nat) : Nat :=
  ((l.drop i).takeWhile (fun x => x == '#')).length

/-- `line_end` of the header branch: `text.find('\n', j)` with `-1`
replaced by `len(text)`. -/
def headerLineEnd (l : List Char) (i : Nat) : Nat :=
  (findFrom ['\n'] l (i + headerCnt l i)).getD l.length

/-- Position of the header text: one past the hash run, skipping a single
optional space. -/
def headerStart (l : List Char) (i : Nat) : Nat :=
  if i + headerCnt l i < l.length ∧ l.getD (i + headerCnt l i) ' ' = ' '
  then i + headerCnt l i + 1 else i + headerCnt l i

/-- `header_text.strip()` of the header branch. -/
def headerText (l : List Char) (i : Nat) : List Char :=
  stripPy (sub l (headerStart l i) (headerLineEnd l i))

/-- Shared shape of the `**`, `__`, `~~` branches: find the closing pair
after `i + 2`; on success emit the `('format', k, inner)` tuple, otherwise
emit the single character at `i` as literal text. -/
def pairedStep (pat : List Char) (k : FormatKind) (l : List Char) (i : Nat) :
    List Directive × Nat :=
  match findFrom pat l (i + 2) with
  | some e => ([Directive.format k (sub l (i + 2) e)], e + 2)
  | none => ([Directive.text [l.getD i ' ']], i + 1)

/-- The header (`#`) branch. -/
def headerStep (l : List Char) (i : Nat) : List Directive × Nat :=
  (if headerText l i ≠ [] then
     [Directive.header (headerCnt l i) (headerText l i)] ++
       (if headerLineEnd l i < l.length then [Directive.text ['\n']] else [])
   else [],
   if headerLineEnd l i < l.length then headerLineEnd l i + 1 else l.length)

/-- The alignment-tag branch (`<L>`, `<C>`, `<R>`). -/
def alignStep (l : List Char) (i : Nat) : List Directive × Nat :=
  match findFrom (['<', '/'] ++ [l.getD (i + 1) ' '] ++ ['>']) l (i + 3) with
  | some e => ([Directive.align (l.getD (i + 1) ' ').toLower (sub l (i + 3) e)], e + 4)
  | none => ([Directive.text [l.getD i ' ']], i + 1)

/-- The `<2H>` / `<2W>` branches (dead code in the source, see
`markerStep`). -/
def doubleStep (tag : List Char) (k : FormatKind) (l : List Char) (i : Nat) :
    List Directive × Nat :=
  match findFrom tag l (i + 4) with
  | some e => ([Directive.format k (sub l (i + 4) e)], e + 5)
  | none => ([Directive.text [l.getD i ' ']], i + 1)

/-- The custom-size branch: `re.match` of `<(\d)x(\d)>` against
`text[i:i+10]` is the shape test on the five characters `text[i:i+5]`. -/
def customStep (l : List Char) (i : Nat) : List Directive × Nat :=
  match sub l i (i + 5) with
  | [a0, a1, a2, a3, a4] =>
    if a0 = '<' ∧ a1.isDigit ∧ a2 = 'x' ∧ a3.isDigit ∧ a4 = '>' then
      match findFrom (['<', '/'] ++ [a1] ++ ['x'] ++ [a3] ++ ['>']) l (i + 5) with
      | some e =>
        ([Directive.custom_size (a1.toNat - 48) (a3.toNat - 48) (sub l (i + 5) e)], e + 6)
      | none => ([Directive.text [l.getD i ' ']], i + 1)
    else ([Directive.text [l.getD i ' ']], i + 1)
  | _ => ([Directive.text [l.getD i ' ']], i + 1)

/-- One iteration of the `elif` chain of markers in
`parse_markdown_formatting` (everything after the paper-cut check).
Returns the directives appended this iteration and the new position `i`.
The `<2H>` and `<2W>` conditions compare the 3-character slice
`text[i:i+3]` with a 4-character literal exactly as the source does, so
they can never hold. -/
def markerStep (l : List Char) (i : Nat) : List Directive × Nat :=
  if sub l i (i + 2) = ['*', '*'] then pairedStep ['*', '*'] .bold l i
  else if sub l i (i + 2) = ['_', '_'] then pairedStep ['_', '_'] .underline l i
  else if sub l i (i + 2) = ['~', '~'] then pairedStep ['~', '~'] .invert l i
  else if l.getD i ' ' = '#' then headerStep l i
  else if sub l i (i + 3) = ['<', 'L', '>'] ∨ sub l i (i + 3) = ['<', 'C', '>'] ∨
          sub l i (i + 3) = ['<', 'R', '>'] then alignStep l i
  else if sub l i (i + 3) = ['<', '2', 'H', '>'] then
    doubleStep (toL "</2H>") .double_height l i
  else if sub l i (i + 3) = ['<', '2', 'W', '>'] then
    doubleStep (toL "</2W>") .double_width l i
  else if l.getD i ' ' = '<' ∧ 'x' ∈ sub l i (i + 10) then customStep l i
  else ([Directive.text [l.getD i ' ']], i + 1)

/-- One iteration of the `while` loop of `parse_markdown_formatting`:
the paper-cut check at line starts, falling through to `markerStep`. -/
def step (l : List Char) (i : Nat) : List Directive × Nat :=
  if (i = 0 ∨ (0 < i ∧ l.get? (i - 1) = some '\n')) ∧
     ['>', '>', '>'].isPrefixOf (l.drop i) ∧
     stripGt ((l.drop i).takeWhile (fun c => c != '\n')) = [] then
    if 3 ≤ ((l.drop i).takeWhile (fun c => c == '>')).length then
      ([Directive.paper_cut],
       match findFrom ['\n'] l (i + ((l.drop i).takeWhile (fun c => c == '>')).length) with
       | none => l.length
       | some e => e + 1)
    else markerStep l i
  else markerStep l i

/-- The scan loop, indexed by fuel.  `step` advances the position by at
least 1 on every iteration (proved below), so fuel `l.length` from
position 0 always reaches the end of the input. -/
def pmfAux (l : List Char) : Nat → Nat → List Directive
  | 0, _ => []
  | fuel + 1, i =>
    if i < l.length then
      (step l i).1 ++ pmfAux l fuel (step l i).2
    else []

/-- `parse_markdown_formatting` of `src/markdown_parser.py`. -/
def parse_markdown_formatting (l : List Char) : List Directive :=
  pmfAux l l.length 0

/-- Characters that can begin (or participate in starting) a marker. -/
def badChars : List Char := ['*', '_', '~', '#', '<', '>']

/-! ## Printer manager (`src/printer_manager.py`) -/

/-- `PrintJobType` enum. -/
inductive PrintJobType where
  | text
  | image
deriving DecidableEq

/-- `Union[str, bytes]` payloads of a `PrintJob`. -/
inductive JobData where
  | text (s : List Char)
  | image (b : List Nat)
deriving DecidableEq

/-- The `PrintJob` dataclass (the wall-clock `timestamp` field, filled from
`time.time()` in `__post_init__`, is environment input and is omitted). -/
structure PrintJobRec where
  job_type : PrintJobType
  data : JobData
  client_info : List Char
deriving DecidableEq

/-- The queue-relevant state of a `PrinterManager`: its `print_queue`
(`None` is the shutdown sentinel pushed by `stop`) and the `is_running`
flag. -/
structure PrinterManagerState where
  print_queue : List (Option PrintJobRec)
  is_running : Bool
deriving DecidableEq

/-- State after `PrinterManager.__init__`. -/
def pmInit : PrinterManagerState := { print_queue := [], is_running := true }

/-- `PrinterManager.add_print_job`: builds a `PrintJob` and unconditionally
`put`s it on `print_queue`.  The source consults neither `is_running` nor
any other flag and has no failure path. -/
def add_print_job (s : PrinterManagerState) (jt : PrintJobType) (d : JobData)
    (ci : List Char) : PrinterManagerState :=
  { s with print_queue := s.print_queue ++ [some ⟨jt, d, ci⟩] }

/-- `PrinterManager.stop`: clears `is_running` and enqueues the `None`
sentinel (the `join` on the worker thread has no queue-visible effect). -/
def pmStop (s : PrinterManagerState) : PrinterManagerState :=
  { print_queue := s.print_queue ++ [none], is_running := false }

/-! ## TCP listeners (`src/tcp_servers.py`) -/

/-- One event observed by the per-connection receive loop of
`start_server`: either `conn.recv` returns a chunk of bytes (the empty
chunk signals that the peer closed), or the socket times out. -/
inductive RecvEvent where
  | chunk (data : List Nat)
  | timeout
deriving DecidableEq

/-- The inner `while True` loop of `start_server`, lines 36-54: each
non-empty chunk is passed to `handler_func` immediately ("streaming
mode"); an empty chunk breaks the loop; a timeout `continue`s.  The
result is the list of payloads handed to `handler_func`, in order. -/
def serveConnection : List RecvEvent → List (List Nat)
  | [] => []
  | RecvEvent.timeout :: rest => serveConnection rest
  | RecvEvent.chunk [] :: _ => []
  | RecvEvent.chunk d :: rest => d :: serveConnection rest

/-- Does the event carry data (a `recv` return) rather than a timeout? -/
def RecvEvent.isData : RecvEvent → Bool
  | .chunk _ => true
  | .timeout => false

/-- Python's `cp437` codec, decoding table for bytes 0x80-0xFF (Unicode
code points, from the standard IBM PC code page 437 mapping).  Bytes
0x00-0x7F decode to themselves.  The codec is total on all 256 byte
values, so `errors='ignore'` in `text_handler` never drops a byte. -/
def cp437High : List Nat := [
  0x00C7, 0x00FC, 0x00E9, 0x00E2, 0x00E4, 0x00E0, 0x00E5, 0x00E7,
  0x00EA, 0x00EB, 0x00E8, 0x00EF, 0x00EE, 0x00EC, 0x00C4, 0x00C5,
  0x00C9, 0x00E6, 0x00C6, 0x00F4, 0x00F6, 0x00F2, 0x00FB, 0x00F9,
  0x00FF, 0x00D6, 0x00DC, 0x00A2, 0x00A3, 0x00A5, 0x20A7, 0x0192,
  0x00E1, 0x00ED, 0x00F3, 0x00FA, 0x00F1, 0x00D1, 0x00AA, 0x00BA,
  0x00BF, 0x2310, 0x00AC, 0x00BD, 0x00BC, 0x00A1, 0x00AB, 0x00BB,
  0x2591, 0x2592, 0x2593, 0x2502, 0x2524, 0x2561, 0x2562, 0x2556,
  0x2555, 0x2563, 0x2551, 0x2557, 0x255D, 0x255C, 0x255B, 0x2510,
  0x2514, 0x2534, 0x252C, 0x251C, 0x2500, 0x253C, 0x255E, 0x255F,
  0x255A, 0x2554, 0x2569, 0x2566, 0x2560, 0x2550, 0x256C, 0x2567,
  0x2568, 0x2564, 0x2565, 0x2559, 0x2558, 0x2552, 0x2553, 0x256B,
  0x256A, 0x2518, 0x250C, 0x2588, 0x2584, 0x258C, 0x2590, 0x2580,
  0x03B1, 0x00DF, 0x0393, 0x03C0, 0x03A3, 0x03C3, 0x00B5, 0x03C4,
  0x03A6, 0x0398, 0x03A9, 0x03B4, 0x221E, 0x03C6, 0x03B5, 0x2229,
  0x2261, 0x00B1, 0x2265, 0x2264, 0x2320, 0x2321, 0x00F7, 0x2248,
  0x00B0, 0x2219, 0x00B7, 0x221A, 0x207F, 0x00B2, 0x25A0, 0x00A0]

/-- Decode one byte with Python's `cp437` codec. -/
def decodeCp437Byte (b : Nat) : Char :=
  if b < 128 then Char.ofNat b else Char.ofNat (cp437High.getD (b - 128) 0xFFFD)

/-- `data.decode('cp437', errors='ignore')` of `text_handler`: cp437 maps
every byte to a character, so nothing is ever ignored. -/
def decodeCp437 (bs : List Nat) : List Char := bs.map decodeCp437Byte

/-- `create_text_server.text_handler` applied over one connection: every
handler invocation decodes its chunk with cp437 and calls
`printer_manager.add_print_job(TEXT, decoded_data, ci)`. -/
def runTextConnection (s : PrinterManagerState) (events : List RecvEvent)
    (ci : List Char) : PrinterManagerState :=
  (serveConnection events).foldl
    (fun st d => add_print_job st .text (.text (decodeCp437 d)) ci) s

/-- `create_image_server.image_handler` applied over one connection: every
handler invocation calls `printer_manager.add_print_job(IMAGE, data, ci)`. -/
def runImageConnection (s : PrinterManagerState) (events : List RecvEvent)
    (ci : List Char) : PrinterManagerState :=
  (serveConnection events).foldl (fun st d => add_print_job st .image (.image d) ci) s

/-! ## IPP server (`src/ipp_server.py`) -/

/-- Big-endian 2-byte encoding, Python `struct.pack('>H', n)`. -/
def be16 (n : Nat) : List Nat := [n / 256 % 256, n % 256]

/-- Big-endian 4-byte encoding, Python `struct.pack('>I', n)`. -/
def be32 (n : Nat) : List Nat :=
  [n / 16777216 % 256, n / 65536 % 256, n / 256 % 256, n % 256]

/-- Bytes of an ASCII string literal. -/
def strBytes (s : String) : List Nat := s.toList.map Char.toNat

/-- `struct.unpack('>H', b[0:2])`. -/
def be16val : List Nat → Nat
  | a :: b :: _ => a * 256 + b
  | _ => 0

/-- `struct.unpack('>I', b[0:4])`. -/
def be32val : List Nat → Nat
  | a :: b :: c :: d :: _ => ((a * 256 + b) * 256 + c) * 256 + d
  | _ => 0

/-- The job-attributes group of `_send_ipp_response` (`include_job_attrs`
branch).  `ip` and `port` are the environment inputs `get_local_ip()` and
`IPP_PORT`, as ASCII character lists. -/
def jobAttrsChunk (ip port : List Char) : List Nat :=
  let job_uri := strBytes "ipp://" ++ ip.map Char.toNat ++ strBytes ":" ++
    port.map Char.toNat ++ strBytes "/ipp/print/1"
  let reason := strBytes "job-completed-successfully"
  [0x02] ++
  [0x45] ++ be16 7 ++ strBytes "job-uri" ++ be16 job_uri.length ++ job_uri ++
  [0x21] ++ be16 6 ++ strBytes "job-id" ++ be16 4 ++ be32 1 ++
  [0x23] ++ be16 9 ++ strBytes "job-state" ++ be16 4 ++ be32 9 ++
  [0x44] ++ be16 17 ++ strBytes "job-state-reasons" ++ be16 reason.length ++ reason

/-- The `operations-supported` loop of `_send_ipp_response`, lines 313-323:
the first value carries the name with length 20, every further value
carries a zero-length name; every value is a 4-byte big-endian integer. -/
def encOpsSupported : List Nat :=
  match [0x0002, 0x0004, 0x0005, 0x0008, 0x0009, 0x000A, 0x000B] with
  | [] => []
  | o :: rest =>
    ([0x23] ++ be16 20 ++ strBytes "operations-supported" ++ be16 4 ++ be32 o) ++
    (rest.map (fun op => [0x23] ++ be16 0 ++ be16 4 ++ be32 op)).flatten

/-- The `document-format-supported` loop of `_send_ipp_response`. -/
def encFormatsSupported : List Nat :=
  match [strBytes "application/pdf", strBytes "application/postscript",
         strBytes "text/plain", strBytes "application/octet-stream"] with
  | [] => []
  | f :: rest =>
    ([0x49] ++ be16 25 ++ strBytes "document-format-supported" ++ be16 f.length ++ f) ++
    (rest.map (fun fmt => [0x49] ++ be16 0 ++ be16 fmt.length ++ fmt)).flatten

/-- The `ipp-versions-supported` loop of `_send_ipp_response`, lines
360-370.  The hardcoded first name length is 23 as in the source. -/
def encVersionsSupported : List Nat :=
  match [strBytes "1.1", strBytes "2.0"] with
  | [] => []
  | v :: rest =>
    ([0x44] ++ be16 23 ++ strBytes "ipp-versions-supported" ++ be16 v.length ++ v) ++
    (rest.map (fun ver => [0x44] ++ be16 0 ++ be16 ver.length ++ ver)).flatten

/-- The printer-attributes group of `_send_ipp_response`
(`include_printer_attrs` branch).  All name-length fields are the
hardcoded constants of the source, including 26 for
`printer-is-accepting-jobs` (line 308) and 23 inside
`encVersionsSupported` (line 365). -/
def printerAttrsChunk (ip port : List Char) : List Nat :=
  let printer_uri := strBytes "ipp://" ++ ip.map Char.toNat ++ strBytes ":" ++
    port.map Char.toNat ++ strBytes "/ipp/print"
  let name := strBytes "PrintDown"
  let fmt := strBytes "application/pdf"
  [0x04] ++
  [0x45] ++ be16 21 ++ strBytes "printer-uri-supported" ++ be16 printer_uri.length ++ printer_uri ++
  [0x42] ++ be16 12 ++ strBytes "printer-name" ++ be16 name.length ++ name ++
  [0x23] ++ be16 13 ++ strBytes "printer-state" ++ be16 4 ++ be32 3 ++
  [0x44] ++ be16 21 ++ strBytes "printer-state-reasons" ++ be16 4 ++ strBytes "none" ++
  [0x22] ++ be16 26 ++ strBytes "printer-is-accepting-jobs" ++ be16 1 ++ [0x01] ++
  encOpsSupported ++
  encFormatsSupported ++
  [0x49] ++ be16 23 ++ strBytes "document-format-default" ++ be16 fmt.length ++ fmt ++
  [0x44] ++ be16 21 ++ strBytes "compression-supported" ++ be16 4 ++ strBytes "none" ++
  [0x47] ++ be16 17 ++ strBytes "charset-supported" ++ be16 5 ++ strBytes "utf-8" ++
  encVersionsSupported

/-- `SimpleIPPHandler._send_ipp_response`: the full response byte string
for a given status code, attribute-group flags, request id and
environment inputs (`requested_attrs` is accepted by the source but never
used in the body, so it is not a parameter here). -/
def sendIppResponse (status : Nat) (include_printer_attrs include_job_attrs : Bool)
    (request_id : Nat) (ip port : List Char) : List Nat :=
  [0x02, 0x00] ++ be16 status ++ be32 request_id ++
  [0x01] ++
  [0x47] ++ be16 18 ++ strBytes "attributes-charset" ++ be16 5 ++ strBytes "utf-8" ++
  [0x48] ++ be16 27 ++ strBytes "attributes-natural-language" ++ be16 5 ++ strBytes "en-us" ++
  (if include_job_attrs then jobAttrsChunk ip port else []) ++
  (if include_printer_attrs then printerAttrsChunk ip port else []) ++
  [0x03]

/-- Which handler the `do_POST` `elif` chain invokes once the 8-byte
header has been decoded. -/
inductive IppDispatch where
  | print_job
  | get_printer_attributes
  | validate_job
  | create_job
  | send_document
  | get_job_attributes
  | get_jobs
  | cancel_job_ok
  | unsupported
deriving DecidableEq

/-- `SimpleIPPHandler.do_POST`, lines 38-73: if the request body has fewer
than 8 bytes it answers `send_error(400, "Invalid IPP request")` and
returns before any handler (and hence any `add_print_job`) can run;
otherwise it decodes the operation id from bytes 2-3 and the request id
from bytes 4-7 (big-endian) and dispatches. -/
def doPOST (request_data : List Nat) : Except Nat (Nat × IppDispatch) :=
  if request_data.length < 8 then Except.error 400
  else
    let op := be16val (request_data.drop 2)
    let reqId := be32val (request_data.drop 4)
    if op = 0x0002 then .ok (reqId, .print_job)
    else if op = 0x000B then .ok (reqId, .get_printer_attributes)
    else if op = 0x0004 then .ok (reqId, .validate_job)
    else if op = 0x0005 then .ok (reqId, .create_job)
    else if op = 0x0006 then .ok (reqId, .send_document)
    else if op = 0x0008 ∨ op = 0x0009 ∨ op = 0x000A then
      if op = 0x0009 then .ok (reqId, .get_job_attributes)
      else if op = 0x000A then .ok (reqId, .get_jobs)
      else .ok (reqId, .cancel_job_ok)
    else .ok (reqId, .unsupported)

/-- Only `_handle_print_job` (reached for Print-Job and Send-Document)
calls `printer_manager.add_print_job`; every other outcome of `do_POST`
submits nothing. -/
def mayTouchQueue : Except Nat (Nat × IppDispatch) → Bool
  | .ok (_, .print_job) => true
  | .ok (_, .send_document) => true
  | _ => false

/-! ## Lemmas about the helpers -/

theorem findAux_some {p l : List Char} :
    ∀ {fuel j0 j : Nat}, findAux p l j0 fuel = some j →
      j0 ≤ j ∧ p.isPrefixOf (l.drop j) = true := by
  intro fuel
  induction fuel with
  | zero => intro j0 j h; simp [findAux] at h
  | succ n ih =>
    intro j0 j h
    unfold findAux at h
    split at h
    · cases h
      exact ⟨le_refl _, by assumption⟩
    · obtain ⟨h1, h2⟩ := ih h
      exact ⟨by omega, h2⟩

theorem findFrom_some {p l : List Char} {start j : Nat}
    (h : findFrom p l start = some j) :
    start ≤ j ∧ p.isPrefixOf (l.drop j) = true :=
  findAux_some h

theorem drop_cons_getD {l : List Char} {i : Nat} (h : i < l.length) :
    l.drop i = l.getD i ' ' :: l.drop (i + 1) := by
  rw [List.drop_eq_getElem_cons h]
  simp [List.getD_eq_getElem?_getD, List.getElem?_eq_getElem h]

theorem head?_take {k : Nat} (hk : 0 < k) (xs : List Char) :
    (xs.take k).head? = xs.head? := by
  cases k with
  | zero => omega
  | succ n => cases xs <;> simp

theorem sub_head {l : List Char} {i : Nat} {c : Char} {rest : List Char}
    (hd : l.drop i = c :: rest) {m : Nat} (hm : 0 < m) :
    (sub l i (i + m)).head? = some c := by
  rw [sub, show i + m - i = m from by omega, hd, head?_take hm]
  rfl

theorem sub_ne_of_head {l : List Char} {i : Nat} {c : Char} {rest : List Char}
    (hd : l.drop i = c :: rest) {m : Nat} (hm : 0 < m)
    {d : Char} {ys : List Char} (hne : c ≠ d) :
    sub l i (i + m) ≠ d :: ys := by
  intro h
  have h1 := sub_head hd hm
  rw [h] at h1
  simp at h1
  exact hne h1.symm

theorem not_ggg_isPrefixOf {l : List Char} {i : Nat} {c : Char} {rest : List Char}
    (hd : l.drop i = c :: rest) (hne : c ≠ '>') :
    ¬ (['>', '>', '>'].isPrefixOf (l.drop i) = true) := by
  intro h
  rw [List.isPrefixOf_iff_prefix] at h
  obtain ⟨t, ht⟩ := h
  rw [hd] at ht
  exact hne (by injection ht with h1 _; exact h1.symm)

theorem markerStep_plain {l : List Char} {i : Nat} (hi : i < l.length)
    (hc : l.getD i ' ' ∉ badChars) :
    markerStep l i = ([Directive.text [l.getD i ' ']], i + 1) := by
  have hd := drop_cons_getD hi
  simp only [badChars, List.mem_cons, List.mem_singleton, not_or] at hc
  obtain ⟨h1, h2, h3, h4, h5, h6, -⟩ := hc
  have two_pos : (0 : Nat) < 2 := by omega
  have three_pos : (0 : Nat) < 3 := by omega
  unfold markerStep
  rw [if_neg (sub_ne_of_head hd two_pos h1)]
  rw [if_neg (sub_ne_of_head hd two_pos h2)]
  rw [if_neg (sub_ne_of_head hd two_pos h3)]
  rw [if_neg h4]
  rw [if_neg (by
    intro h
    rcases h with h | h | h <;> exact sub_ne_of_head hd three_pos h5 h)]
  rw [if_neg (sub_ne_of_head hd three_pos h5)]
  rw [if_neg (sub_ne_of_head hd three_pos h5)]
  rw [if_neg (fun h => h5 h.1)]

theorem step_plain {l : List Char} {i : Nat} (hi : i < l.length)
    (hc : l.getD i ' ' ∉ badChars) :
    step l i = ([Directive.text [l.getD i ' ']], i + 1) := by
  have hd := drop_cons_getD hi
  have hgt : l.getD i ' ' ≠ '>' := by
    simp only [badChars, List.mem_cons, List.mem_singleton, not_or] at hc
    exact hc.2.2.2.2.2.1
  unfold step
  rw [if_neg (by
    intro h
    exact not_ggg_isPrefixOf hd hgt h.2.1)]
  exact markerStep_plain hi hc

theorem pmfAux_stop {l : List Char} {i : Nat} (h : l.length ≤ i) :
    ∀ fuel, pmfAux l fuel i = [] := by
  intro fuel
  cases fuel with
  | zero => rfl
  | succ n => rw [pmfAux, if_neg (by omega)]

theorem pmfAux_plain {l : List Char} :
    ∀ fuel i, l.length - i ≤ fuel →
      (∀ j, i ≤ j → j < l.length → l.getD j ' ' ∉ badChars) →
      pmfAux l fuel i = (l.drop i).map (fun c => Directive.text [c]) := by
  intro fuel
  induction fuel with
  | zero =>
    intro i hf _
    rw [List.drop_eq_nil_of_le (by omega)]
    rfl
  | succ n ih =>
    intro i hf hp
    by_cases hi : i < l.length
    · have hstep := step_plain hi (hp i le_rfl hi)
      rw [pmfAux, if_pos hi]
      simp only [hstep]
      rw [ih (i + 1) (by omega) (fun j hj hjl => hp j (by omega) hjl)]
      rw [drop_cons_getD hi]
      rfl
    · rw [pmfAux, if_neg hi, List.drop_eq_nil_of_le (by omega)]
      rfl

theorem getD_mem {l : List Char} {j : Nat} (hjl : j < l.length) :
    l.getD j ' ' ∈ l := by
  have h : l.getD j ' ' = l[j] := by
    simp [List.getD_eq_getElem?_getD, List.getElem?_eq_getElem hjl]
  rw [h]
  exact List.getElem_mem hjl

theorem parse_plain {l : List Char} (hp : ∀ c ∈ l, c ∉ badChars) :
    parse_markdown_formatting l = l.map (fun c => Directive.text [c]) := by
  rw [parse_markdown_formatting,
    pmfAux_plain l.length 0 (by omega) (fun j _ hjl => hp _ (getD_mem hjl)),
    List.drop_zero]

theorem takeWhile_bne_append (k : Nat) (rest : List Char) :
    List.takeWhile (fun c => c != '\n') (List.replicate k '>' ++ '\n' :: rest) =
      List.replicate k '>' := by
  induction k with
  | zero => simp
  | succ n ih => simp [List.replicate_succ, List.takeWhile_cons, ih]

theorem takeWhile_bne_nil (k : Nat) :
    List.takeWhile (fun c => c != '\n') (List.replicate k '>') =
      List.replicate k '>' := by
  induction k with
  | zero => rfl
  | succ n ih => simp [List.replicate_succ, List.takeWhile_cons, ih]

theorem takeWhile_beq_append (k : Nat) (rest : List Char) :
    List.takeWhile (fun c => c == '>') (List.replicate k '>' ++ '\n' :: rest) =
      List.replicate k '>' := by
  induction k with
  | zero => simp
  | succ n ih => simp [List.replicate_succ, List.takeWhile_cons, ih]

theorem takeWhile_beq_nil (k : Nat) :
    List.takeWhile (fun c => c == '>') (List.replicate k '>') =
      List.replicate k '>' := by
  induction k with
  | zero => rfl
  | succ n ih => simp [List.replicate_succ, List.takeWhile_cons, ih]

theorem dropWhile_beq_replicate (k : Nat) :
    List.dropWhile (fun c => c == '>') (List.replicate k '>') = [] := by
  induction k with
  | zero => rfl
  | succ n ih => simp [List.replicate_succ, List.dropWhile_cons, ih]

theorem stripGt_replicate (k : Nat) : stripGt (List.replicate k '>') = [] := by
  simp [stripGt, stripEnds, dropWhile_beq_replicate]

theorem ggg_isPrefixOf {k : Nat} (hk : 3 ≤ k) (xs : List Char) :
    ['>', '>', '>'].isPrefixOf (List.replicate k '>' ++ xs) = true := by
  obtain ⟨m, rfl⟩ := Nat.exists_eq_add_of_le hk
  rw [Nat.add_comm]
  simp [List.replicate_succ, List.isPrefixOf]

theorem step_papercut_line (k : Nat) (hk : 3 ≤ k) (rest : List Char) :
    step (List.replicate k '>' ++ '\n' :: rest) 0 =
      ([Directive.paper_cut], k + 1) := by
  have hlen : (List.replicate k '>' ++ '\n' :: rest).length = k + 1 + rest.length := by
    simp
    omega
  have hdk : (List.replicate k '>' ++ '\n' :: rest).drop k = '\n' :: rest := by
    have := List.drop_left (List.replicate k '>') ('\n' :: rest)
    rwa [List.length_replicate] at this
  have hcnt :
      ((List.replicate k '>' ++ '\n' :: rest).drop 0).takeWhile (fun c => c == '>') =
        List.replicate k '>' := by
    rw [List.drop_zero, takeWhile_beq_append]
  unfold step
  rw [if_pos ⟨Or.inl rfl, by rw [List.drop_zero]; exact ggg_isPrefixOf hk _, by
    rw [List.drop_zero, takeWhile_bne_append, stripGt_replicate]⟩]
  rw [hcnt, List.length_replicate]
  rw [if_pos hk]
  have hfind : findFrom ['\n'] (List.replicate k '>' ++ '\n' :: rest) (0 + k) = some k := by
    rw [Nat.zero_add, findFrom, hlen, show k + 1 + rest.length + 1 - k = rest.length + 2 from by omega,
      findAux, if_pos (by rw [hdk]; simp [List.isPrefixOf])]
  rw [hfind]

theorem step_papercut_bare (k : Nat) (hk : 3 ≤ k) :
    step (List.replicate k '>') 0 = ([Directive.paper_cut], k) := by
  have hdk : (List.replicate k '>').drop k = [] :=
    List.drop_eq_nil_of_le (by rw [List.length_replicate])
  unfold step
  rw [if_pos ⟨Or.inl rfl, by
      rw [List.drop_zero]
      have := ggg_isPrefixOf hk ([] : List Char)
      rwa [List.append_nil] at this, by
    rw [List.drop_zero, takeWhile_bne_nil, stripGt_replicate]⟩]
  rw [show ((List.replicate k '>').drop 0).takeWhile (fun c => c == '>') =
        List.replicate k '>' from by rw [List.drop_zero, takeWhile_beq_nil],
    List.length_replicate, if_pos hk]
  have hfind : findFrom ['\n'] (List.replicate k '>') (0 + k) = none := by
    rw [Nat.zero_add, findFrom, List.length_replicate,
      show k + 1 - k = 1 from by omega, findAux,
      if_neg (by rw [hdk]; simp [List.isPrefixOf]), findAux]
  rw [hfind]


theorem pairedStep_snd_lt (pat : List Char) (k : FormatKind) (l : List Char)
    (i : Nat) : i + 1 ≤ (pairedStep pat k l i).2 := by
  unfold pairedStep
  split
  · rename_i e heq
    have := (findFrom_some heq).1
    simp only []
    omega
  · simp only []
    omega

theorem headerLineEnd_ge (l : List Char) (i : Nat) (hi : i < l.length) :
    i + 1 ≤ headerLineEnd l i + 1 ∧ i + 1 ≤ l.length := by
  refine ⟨?_, by omega⟩
  unfold headerLineEnd
  cases hf : findFrom ['\n'] l (i + headerCnt l i) with
  | none => simp only [Option.getD_none]; omega
  | some e =>
    have := (findFrom_some hf).1
    simp only [Option.getD_some]
    omega

theorem headerStep_snd_lt (l : List Char) (i : Nat) (hi : i < l.length) :
    i + 1 ≤ (headerStep l i).2 := by
  obtain ⟨h1, h2⟩ := headerLineEnd_ge l i hi
  unfold headerStep
  simp only []
  split <;> omega

theorem alignStep_snd_lt (l : List Char) (i : Nat) :
    i + 1 ≤ (alignStep l i).2 := by
  unfold alignStep
  split
  · rename_i e heq
    have := (findFrom_some heq).1
    simp only []
    omega
  · simp only []
    omega

theorem doubleStep_snd_lt (tag : List Char) (k : FormatKind) (l : List Char)
    (i : Nat) : i + 1 ≤ (doubleStep tag k l i).2 := by
  unfold doubleStep
  split
  · rename_i e heq
    have := (findFrom_some heq).1
    simp only []
    omega
  · simp only []
    omega

theorem customStep_snd_lt (l : List Char) (i : Nat) :
    i + 1 ≤ (customStep l i).2 := by
  unfold customStep
  split
  · split
    · split
      · rename_i e heq
        have := (findFrom_some heq).1
        simp only []
        omega
      · simp only []
        omega
    · simp only []
      omega
  · simp only []
    omega

theorem markerStep_snd_lt (l : List Char) (i : Nat) (hi : i < l.length) :
    i + 1 ≤ (markerStep l i).2 := by
  unfold markerStep
  split
  · exact pairedStep_snd_lt _ _ l i
  split
  · exact pairedStep_snd_lt _ _ l i
  split
  · exact pairedStep_snd_lt _ _ l i
  split
  · exact headerStep_snd_lt l i hi
  split
  · exact alignStep_snd_lt l i
  split
  · exact doubleStep_snd_lt _ _ l i
  split
  · exact doubleStep_snd_lt _ _ l i
  split
  · exact customStep_snd_lt l i
  · simp only []
    omega

theorem step_snd_lt (l : List Char) (i : Nat) (hi : i < l.length) :
    i + 1 ≤ (step l i).2 := by
  unfold step
  split
  · split
    · simp only []
      cases hf : findFrom ['\n'] l
          (i + ((l.drop i).takeWhile (fun c => c == '>')).length) with
      | none => simp only [hf]; omega
      | some e =>
        have := (findFrom_some hf).1
        simp only [hf]
        omega
    · exact markerStep_snd_lt l i hi
  · exact markerStep_snd_lt l i hi

theorem pmfAux_fuel_ext {l : List Char} :
    ∀ fuel fuel' i, l.length - i ≤ fuel → l.length - i ≤ fuel' →
      pmfAux l fuel i = pmfAux l fuel' i := by
  intro fuel
  induction fuel with
  | zero =>
    intro fuel' i hf hf'
    rw [pmfAux_stop (by omega), pmfAux_stop (by omega)]
  | succ n ih =>
    intro fuel' i hf hf'
    by_cases hi : i < l.length
    · cases fuel' with
      | zero => omega
      | succ n2 =>
        rw [pmfAux, pmfAux, if_pos hi, if_pos hi]
        have hadv := step_snd_lt l i hi
        rw [ih n2 (step l i).2 (by omega) (by omega)]
    · rw [pmfAux_stop (by omega), pmfAux_stop (by omega)]

theorem parse_replicate_gt (k : Nat) (hk : 3 ≤ k) :
    parse_markdown_formatting (List.replicate k '>') = [Directive.paper_cut] := by
  obtain ⟨m, rfl⟩ := Nat.exists_eq_add_of_le (show 1 ≤ k from by omega)
  rw [show 1 + m = m + 1 from by omega] at hk ⊢
  rw [parse_markdown_formatting, List.length_replicate]
  rw [pmfAux, if_pos (by simp)]
  rw [step_papercut_bare (m + 1) hk]
  rw [pmfAux_stop (by simp)]
  rfl

theorem foldl_image_queue (ci : List Char) :
    ∀ (cs : List (List Nat)) (s : PrinterManagerState),
      (cs.foldl (fun st d => add_print_job st .image (.image d) ci) s).print_queue =
        s.print_queue ++ cs.map (fun d => some ⟨.image, .image d, ci⟩) := by
  intro cs
  induction cs with
  | nil => intro s; simp
  | cons a rest ih =>
    intro s
    rw [List.foldl_cons, ih, List.map_cons]
    show (add_print_job s .image (.image a) ci).print_queue ++ _ = _
    rw [add_print_job]
    simp

theorem foldl_text_queue (ci : List Char) :
    ∀ (cs : List (List Nat)) (s : PrinterManagerState),
      (cs.foldl (fun st d => add_print_job st .text (.text (decodeCp437 d)) ci)
          s).print_queue =
        s.print_queue ++ cs.map (fun d => some ⟨.text, .text (decodeCp437 d), ci⟩) := by
  intro cs
  induction cs with
  | nil => intro s; simp
  | cons a rest ih =>
    intro s
    rw [List.foldl_cons, ih, List.map_cons]
    show (add_print_job s .text (.text (decodeCp437 a)) ci).print_queue ++ _ = _
    rw [add_print_job]
    simp

theorem serveConnection_filter :
    ∀ ev : List RecvEvent,
      serveConnection ev = serveConnection (ev.filter RecvEvent.isData) := by
  intro ev
  induction ev with
  | nil => rfl
  | cons e rest ih =>
    cases e with
    | timeout => simp [serveConnection, List.filter_cons, RecvEvent.isData, ih]
    | chunk d =>
      cases d with
      | nil => simp [serveConnection, List.filter_cons, RecvEvent.isData]
      | cons x xs => simp [serveConnection, List.filter_cons, RecvEvent.isData, ih]

theorem serveConnection_chunks (cs : List (List Nat)) (h : ∀ c ∈ cs, c ≠ []) :
    serveConnection (cs.map RecvEvent.chunk ++ [RecvEvent.chunk []]) = cs := by
  induction cs with
  | nil => rfl
  | cons a rest ih =>
    cases ha : a with
    | nil => exact absurd ha (h a (by simp))
    | cons x xs =>
      simp only [List.map_cons, List.cons_append, serveConnection, List.append_eq]
      rw [ih (fun c hc => h c (by simp [hc]))]

/-! ## The claims -/

/-- C1 (counterexample): after `stop()` has cleared `is_running`,
`add_print_job` does not reject the submission: the job is appended to
`print_queue` behind the `None` shutdown sentinel, contradicting the
claim that `add_print_job` returns a rejection whenever `is_running` is
false. -/
theorem claim_C1_counterexample :
    (pmStop pmInit).is_running = false ∧
    (add_print_job (pmStop pmInit) PrintJobType.text (JobData.text (toL "late"))
        (toL "client")).print_queue =
      [none, some ⟨PrintJobType.text, JobData.text (toL "late"), toL "client"⟩] :=
  ⟨rfl, rfl⟩

/-- C1 (amended): `add_print_job` unconditionally enqueues the job — it
never consults `is_running` and has no rejection path, so submissions
before and after `stop()` alike are appended to `print_queue` (after
`stop()` they sit behind the `None` sentinel and are never processed). -/
theorem claim_C1_amended (s : PrinterManagerState) (jt : PrintJobType)
    (d : JobData) (ci : List Char) :
    (add_print_job s jt d ci).print_queue = s.print_queue ++ [some ⟨jt, d, ci⟩] ∧
    (add_print_job s jt d ci).is_running = s.is_running :=
  ⟨rfl, rfl⟩

/-- C2 (counterexample): a connection that delivers two non-empty chunks
and then closes causes two handler invocations and two queued PrintJobs,
not one job carrying the accumulated bytes — the listener streams chunks,
it does not accumulate them. -/
theorem claim_C2_counterexample :
    serveConnection [RecvEvent.chunk [65], RecvEvent.chunk [66], RecvEvent.chunk []] =
      [[65], [66]] ∧
    (runImageConnection pmInit
        [RecvEvent.chunk [65], RecvEvent.chunk [66], RecvEvent.chunk []]
        (toL "c")).print_queue.length = 2 :=
  ⟨rfl, rfl⟩

/-- C2 (amended): for every connection trace — timeouts allowed anywhere,
since a timeout only `continue`s the loop — whose received data is a list
of non-empty chunks followed by the empty `recv` that signals the peer
closing, the listener invokes the handler once per non-empty chunk, so
exactly one PrintJob is submitted per chunk, not one per connection: the
text listener submits one TEXT job per chunk whose payload is that
chunk's bytes decoded with cp437 independently of the other chunks, and
the image listener one IMAGE job per chunk with the raw bytes. -/
theorem claim_C2_amended (cs : List (List Nat)) (s : PrinterManagerState)
    (ci : List Char) (ev : List RecvEvent) (h : ∀ c ∈ cs, c ≠ [])
    (hev : ev.filter RecvEvent.isData =
      cs.map RecvEvent.chunk ++ [RecvEvent.chunk []]) :
    serveConnection ev = cs ∧
    (runTextConnection s ev ci).print_queue =
      s.print_queue ++ cs.map (fun d => some ⟨.text, .text (decodeCp437 d), ci⟩) ∧
    (runImageConnection s ev ci).print_queue =
      s.print_queue ++ cs.map (fun d => some ⟨.image, .image d, ci⟩) := by
  have h1 : serveConnection ev = cs := by
    rw [serveConnection_filter, hev, serveConnection_chunks cs h]
  refine ⟨h1, ?_, ?_⟩
  · rw [runTextConnection, h1, foldl_text_queue]
  · rw [runImageConnection, h1, foldl_image_queue]

theorem claim_C2_amended_witness :
    ((∀ c ∈ [[65], [66]], c ≠ ([] : List Nat)) ∧
     [RecvEvent.timeout, RecvEvent.chunk [65], RecvEvent.chunk [66],
       RecvEvent.timeout, RecvEvent.chunk []].filter RecvEvent.isData =
       [[65], [66]].map RecvEvent.chunk ++ [RecvEvent.chunk []]) ∧
    (serveConnection [RecvEvent.timeout, RecvEvent.chunk [65], RecvEvent.chunk [66],
        RecvEvent.timeout, RecvEvent.chunk []] = [[65], [66]] ∧
      (runTextConnection pmInit
          [RecvEvent.timeout, RecvEvent.chunk [65], RecvEvent.chunk [66],
            RecvEvent.timeout, RecvEvent.chunk []] (toL "c")).print_queue =
        pmInit.print_queue ++
          [[65], [66]].map (fun d => some ⟨.text, .text (decodeCp437 d), toL "c"⟩) ∧
      (runImageConnection pmInit
          [RecvEvent.timeout, RecvEvent.chunk [65], RecvEvent.chunk [66],
            RecvEvent.timeout, RecvEvent.chunk []] (toL "c")).print_queue =
        pmInit.print_queue ++
          [[65], [66]].map (fun d => some ⟨.image, .image d, toL "c"⟩)) :=
  ⟨⟨by decide, by decide⟩,
   claim_C2_amended [[65], [66]] pmInit (toL "c")
     [RecvEvent.timeout, RecvEvent.chunk [65], RecvEvent.chunk [66],
       RecvEvent.timeout, RecvEvent.chunk []] (by decide) (by decide)⟩

theorem sub_three_ne_quad (l : List Char) (i : Nat) (a b c d : Char) :
    sub l i (i + 3) ≠ [a, b, c, d] := by
  intro h
  have hlen : (sub l i (i + 3)).length ≤ 3 := by
    rw [sub, show i + 3 - i = 3 from by omega]
    exact List.length_take_le 3 _
  rw [h] at hlen
  simp at hlen

/-- C3 (code evaluated at the failing input): the source's `<2H>` and
`<2W>` branches compare the 3-character slice `text[i:i+3]` with a
4-character literal and therefore never fire, so `"<2H>hi</2H>"` and
`"<2W>hi</2W>"` compile to per-character literal text instead of the
`Style(double_height/double_width, "hi")` the claim (and the spec)
require. -/
theorem claim_C3_double_tags :
    parse_markdown_formatting (toL "<2H>hi</2H>") =
      (toL "<2H>hi</2H>").map (fun c => Directive.text [c]) ∧
    parse_markdown_formatting (toL "<2W>hi</2W>") =
      (toL "<2W>hi</2W>").map (fun c => Directive.text [c]) := by
  constructor <;> decide

/-- C5 (counterexample): `compile("plain")` produces one `Text` directive
per character — five directives — not the single coalesced
`[Text("plain")]` the claim states. -/
theorem claim_C5_counterexample :
    parse_markdown_formatting (toL "plain") =
      [Directive.text ['p'], Directive.text ['l'], Directive.text ['a'],
       Directive.text ['i'], Directive.text ['n']] ∧
    (parse_markdown_formatting (toL "plain")).length = 5 := by
  constructor <;> decide

/-- C5 (amended): an input consisting only of literal characters (none of
the marker-starting characters) compiles to exactly one `Text` directive
per character, in order; their concatenation is the input. -/
theorem claim_C5_amended (l : List Char) (hp : ∀ c ∈ l, c ∉ badChars) :
    parse_markdown_formatting l = l.map (fun c => Directive.text [c]) :=
  parse_plain hp

theorem claim_C5_amended_witness :
    (∀ c ∈ toL "plain", c ∉ badChars) ∧
    parse_markdown_formatting (toL "plain") =
      (toL "plain").map (fun c => Directive.text [c]) :=
  ⟨by decide, claim_C5_amended (toL "plain") (by decide)⟩

/-- C6: an IPP request body of fewer than 8 bytes makes `do_POST` answer
HTTP 400 ("Invalid IPP request") before dispatching to any handler, so no
PrintJob can be submitted for it. -/
theorem claim_C6_short_request (d : List Nat) (h : d.length < 8) :
    doPOST d = Except.error 400 ∧ mayTouchQueue (doPOST d) = false := by
  rw [doPOST, if_pos h]
  exact ⟨rfl, rfl⟩

theorem claim_C6_short_request_witness :
    ([1, 2, 3] : List Nat).length < 8 ∧
    (doPOST [1, 2, 3] = Except.error 400 ∧
      mayTouchQueue (doPOST [1, 2, 3]) = false) :=
  ⟨by decide, claim_C6_short_request [1, 2, 3] (by decide)⟩

/-- C7: the `operations-supported` encoding consists of one first value
carrying the name (name-length field 20, which is the byte length of
`"operations-supported"`) and six additional values with zero-length name
fields, every one of the seven values being a 4-byte big-endian integer
with value-length field 4. -/
theorem claim_C7_ops_supported :
    encOpsSupported =
      ([0x23] ++ be16 20 ++ strBytes "operations-supported" ++ be16 4 ++ be32 0x0002) ++
      ([0x0004, 0x0005, 0x0008, 0x0009, 0x000A, 0x000B].map
        (fun op => [0x23] ++ be16 0 ++ be16 4 ++ be32 op)).flatten ∧
    (strBytes "operations-supported").length = 20 ∧
    ([0x0002, 0x0004, 0x0005, 0x0008, 0x0009, 0x000A, 0x000B].all
      (fun op => (be32 op).length == 4)) = true := by
  refine ⟨rfl, rfl, ?_⟩
  decide

/-- C9: a line that is exactly a run of `k ≥ 3` copies of `>` compiles to
the single directive `PaperCut` with the whole line (and its newline)
consumed — shown both for a line followed by more input and for the
run alone — while a two-character run `">>"`, a mixed run `">>>a"`, and
generally anything else on the line fall through to literal text;
`"a\n>>>>"` shows recognition immediately after a newline. -/
theorem claim_C9_paper_cut :
    (∀ k rest, 3 ≤ k →
      step (List.replicate k '>' ++ '\n' :: rest) 0 = ([Directive.paper_cut], k + 1)) ∧
    (∀ k, 3 ≤ k →
      parse_markdown_formatting (List.replicate k '>') = [Directive.paper_cut]) ∧
    parse_markdown_formatting (toL ">>") = [Directive.text ['>'], Directive.text ['>']] ∧
    parse_markdown_formatting (toL ">>>a") =
      [Directive.text ['>'], Directive.text ['>'], Directive.text ['>'],
       Directive.text ['a']] ∧
    parse_markdown_formatting (toL "a\n>>>>") =
      [Directive.text ['a'], Directive.text ['\n'], Directive.paper_cut] := by
  refine ⟨fun k rest hk => step_papercut_line k hk rest,
          fun k hk => parse_replicate_gt k hk, ?_, ?_, ?_⟩ <;> decide

theorem claim_C9_paper_cut_witness :
    step (List.replicate 3 '>' ++ '\n' :: toL "ab") 0 = ([Directive.paper_cut], 4) ∧
    parse_markdown_formatting (List.replicate 4 '>') = [Directive.paper_cut] :=
  ⟨claim_C9_paper_cut.1 3 (toL "ab") (by decide),
   claim_C9_paper_cut.2.1 4 (by decide)⟩

/-- C10: the markup compiler is total and deterministic: every loop
iteration advances the scan position by at least 1, and consequently the
fuel-indexed scan is independent of the fuel once the fuel reaches the
input length — `parse_markdown_formatting` (fuel = input length) is the
fixed result of the scan for every sufficient fuel. -/
theorem claim_C10_total :
    (∀ (l : List Char) (i : Nat), i < l.length → i + 1 ≤ (step l i).2) ∧
    (∀ (l : List Char) (fuel : Nat), l.length ≤ fuel →
      pmfAux l fuel 0 = parse_markdown_formatting l) := by
  refine ⟨step_snd_lt, ?_⟩
  intro l fuel hf
  rw [parse_markdown_formatting]
  exact pmfAux_fuel_ext fuel l.length 0 (by omega) (by omega)

theorem claim_C10_total_witness :
    (0 + 1 ≤ (step (toL "ab") 0).2) ∧
    pmfAux (toL "ab") 99 0 = parse_markdown_formatting (toL "ab") :=
  ⟨claim_C10_total.1 (toL "ab") 0 (by decide),
   claim_C10_total.2 (toL "ab") 99 (by decide)⟩

set_option maxRecDepth 100000 in
/-- C4 (code evaluated at the failing input): with printer attributes
included (`include_printer_attrs = true`, ip 127.0.0.1, port 6310), the
response bytes at offset 209 are the complete `printer-is-accepting-jobs`
attribute whose 2-byte name-length field holds 26 although the name that
immediately follows is 25 bytes long, and at offset 539 the
`ipp-versions-supported` attribute whose name-length field holds 23
although its name is 22 bytes long — refuting the claim that every
name-length field equals the length of the following name. -/
theorem claim_C4_name_length :
    ((sendIppResponse 0 true false 1 (toL "127.0.0.1") (toL "6310")).drop 209).take 31 =
      [0x22] ++ be16 26 ++ strBytes "printer-is-accepting-jobs" ++ be16 1 ++ [0x01] ∧
    (strBytes "printer-is-accepting-jobs").length = 25 ∧
    ((sendIppResponse 0 true false 1 (toL "127.0.0.1") (toL "6310")).drop 539).take 30 =
      [0x44] ++ be16 23 ++ strBytes "ipp-versions-supported" ++ be16 3 ++ strBytes "1.1" ∧
    (strBytes "ipp-versions-supported").length = 22 := by
  refine ⟨?_, rfl, ?_, rfl⟩ <;> decide

theorem claim_C1_amended_witness :
    (add_print_job pmInit PrintJobType.text (JobData.text (toL "x"))
        (toL "c")).print_queue =
      pmInit.print_queue ++
        [some ⟨PrintJobType.text, JobData.text (toL "x"), toL "c"⟩] ∧
    (add_print_job pmInit PrintJobType.text (JobData.text (toL "x"))
        (toL "c")).is_running = pmInit.is_running :=
  claim_C1_amended pmInit PrintJobType.text (JobData.text (toL "x")) (toL "c")
